import Mathlib

/-!
Shallow embedding of the `fastui_admin` package (files `utils.py`, `views.py`,
`base.py`) and proofs about its schema-derivation, route-synthesis, column
selection, constructor validation, view registration and slug logic.

Python strings are modelled as `String` (lists of characters); Python `None`
as `Option.none`; raised exceptions as `Except.error`.  SQLAlchemy column
metadata is modelled by explicit structures carrying exactly the attributes
the code reads (`key`, `type`, `nullable`, `default`, the mapper's column
list and primary-key names).
-/

/-! ## ASCII character helpers (model of the `str` methods used by `utils.py`) -/

/-- Is `c` an ASCII lowercase letter `a`-`z`? -/
def isAsciiLower (c : Char) : Bool := decide (97 ≤ c.toNat) && decide (c.toNat ≤ 122)

/-- Is `c` an ASCII uppercase letter `A`-`Z`? -/
def isAsciiUpper (c : Char) : Bool := decide (65 ≤ c.toNat) && decide (c.toNat ≤ 90)

/-- Is `c` an ASCII digit `0`-`9`? -/
def isAsciiDigit (c : Char) : Bool := decide (48 ≤ c.toNat) && decide (c.toNat ≤ 57)

/-- Is `c` an ASCII letter? -/
def isAsciiAlpha (c : Char) : Bool := isAsciiUpper c || isAsciiLower c

/-- Whitespace characters stripped by `str.strip()` (tab, newline, vertical
tab, form feed, carriage return, space). -/
def isPySpace (c : Char) : Bool :=
  decide (c.toNat = 9) || decide (c.toNat = 10) || decide (c.toNat = 11) ||
  decide (c.toNat = 12) || decide (c.toNat = 13) || decide (c.toNat = 32)

/-- `str.lower` on one character (ASCII part). -/
def pyLowerChar (c : Char) : Char :=
  if isAsciiUpper c then Char.ofNat (c.toNat + 32) else c

/-- `str.upper` on one character (ASCII part). -/
def pyUpperChar (c : Char) : Char :=
  if isAsciiLower c then Char.ofNat (c.toNat - 32) else c

/-- Remove the longest prefix of characters satisfying `p`
(the left half of `str.strip`). -/
def dropLeading (p : Char → Bool) (l : List Char) : List Char := l.dropWhile p

/-- Remove the longest suffix of characters satisfying `p`
(the right half of `str.strip`). -/
def dropTrailing (p : Char → Bool) : List Char → List Char
  | [] => []
  | c :: rest =>
    let r := dropTrailing p rest
    if r.isEmpty then (if p c then [] else [c]) else c :: r

/-- `str.strip(chars)`: remove leading and trailing characters satisfying `p`. -/
def pyStripBy (p : Char → Bool) (l : List Char) : List Char :=
  dropTrailing p (dropLeading p l)

/-! ## `utils.slugify` -/

/-- A character kept verbatim by the slug regex `[^a-z0-9]+`:
lowercase ASCII letter or digit. -/
def isSlugChar (c : Char) : Bool := isAsciiLower c || isAsciiDigit c

/-- `re.sub(r"[^a-z0-9]+", "-", s)`: each maximal run of characters outside
`[a-z0-9]` becomes a single hyphen.  The flag records whether the previous
character belonged to such a run. -/
def subNonAlnumAux : Bool → List Char → List Char
  | _, [] => []
  | inRun, c :: rest =>
    if isSlugChar c then c :: subNonAlnumAux false rest
    else if inRun then subNonAlnumAux true rest
    else '-' :: subNonAlnumAux true rest

/-- `re.sub(r"[^a-z0-9]+", "-", s)` on a character list. -/
def subNonAlnum (l : List Char) : List Char := subNonAlnumAux false l

/-- `utils.slugify` on a character list:
`re.sub(r"[^a-z0-9]+", "-", name.lower().strip()).strip("-")`. -/
def slugifyChars (l : List Char) : List Char :=
  pyStripBy (fun c => c == '-') (subNonAlnum (pyStripBy isPySpace (l.map pyLowerChar)))

/-- `utils.slugify`: convert a name to a URL-safe slug. -/
def slugify (s : String) : String := String.mk (slugifyChars s.data)

/-- All characters of `l` are lowercase ASCII letters, digits or hyphens. -/
def goodSlugChars (l : List Char) : Bool := l.all (fun c => isSlugChar c || c == '-')

/-- No two consecutive characters of `l` are both hyphens. -/
def noDoubleHyphen : List Char → Bool
  | [] => true
  | [_] => true
  | a :: b :: rest => !(a == '-' && b == '-') && noDoubleHyphen (b :: rest)

/-- `l` neither starts nor ends with a hyphen. -/
def noEdgeHyphen (l : List Char) : Bool :=
  (match l.head? with | some c => !(c == '-') | none => true) &&
  (match l.getLast? with | some c => !(c == '-') | none => true)

/-- A well-formed slug: only `[a-z0-9-]`, no edge hyphen, no double hyphen. -/
def isValidSlug (l : List Char) : Bool :=
  goodSlugChars l && noEdgeHyphen l && noDoubleHyphen l

/-! ## SQLAlchemy column metadata model (`utils.py`) -/

/-- The SQLAlchemy column types the code can receive.  `other` stands for a
type unrelated to every class in `SA_TYPE_MAP` (e.g. a custom type). -/
inductive SAType where
  | bigInteger | smallInteger | integer | float | numeric
  | string | text | boolean | dateTime | date | time | other
  deriving DecidableEq, Repr

/-- The SQLAlchemy type classes appearing as keys of `SA_TYPE_MAP`. -/
inductive SAClass where
  | bigIntegerC | smallIntegerC | integerC | floatC | numericC
  | stringC | textC | booleanC | dateTimeC | dateC | timeC
  deriving DecidableEq, Repr

/-- Python types appearing as values of `SA_TYPE_MAP`. -/
inductive PyType where
  | pint | pfloat | pdecimal | pstr | pbool | pdatetime | pdate | ptime
  deriving DecidableEq, Repr

/-- `isinstance(instance_of_t, cls)` for the classes in `SA_TYPE_MAP`,
following SQLAlchemy's class hierarchy: `BigInteger` and `SmallInteger`
subclass `Integer`, `Float` subclasses `Numeric`, `Text` subclasses
`String`. -/
def saInstanceOf : SAType → SAClass → Bool
  | .bigInteger, .bigIntegerC => true
  | .bigInteger, .integerC => true
  | .smallInteger, .smallIntegerC => true
  | .smallInteger, .integerC => true
  | .integer, .integerC => true
  | .float, .floatC => true
  | .float, .numericC => true
  | .numeric, .numericC => true
  | .string, .stringC => true
  | .text, .textC => true
  | .text, .stringC => true
  | .boolean, .booleanC => true
  | .dateTime, .dateTimeC => true
  | .date, .dateC => true
  | .time, .timeC => true
  | _, _ => false

/-- `SA_TYPE_MAP` in its source insertion order. -/
def SA_TYPE_MAP : List (SAClass × PyType) :=
  [(.bigIntegerC, .pint), (.smallIntegerC, .pint), (.integerC, .pint),
   (.floatC, .pfloat), (.numericC, .pdecimal),
   (.stringC, .pstr), (.textC, .pstr), (.booleanC, .pbool),
   (.dateTimeC, .pdatetime), (.dateC, .pdate), (.timeC, .ptime)]

/-- `utils.get_python_type`: first entry of `SA_TYPE_MAP` whose class the
column type is an instance of; `str` for unknown types. -/
def get_python_type (sa_type : SAType) : PyType :=
  match SA_TYPE_MAP.find? (fun p => saInstanceOf sa_type p.fst) with
  | some p => p.snd
  | none => PyType.pstr

/-- A scalar Python value usable as a column default. -/
inductive SAScalar where
  | sInt (n : Int)
  | sStr (s : String)
  | sBool (b : Bool)
  | sFloat (num den : Int)
  deriving DecidableEq, Repr

/-- `column.default`: absent, a `ColumnDefault` wrapping a callable, or a
`ColumnDefault` wrapping a scalar value. -/
inductive SADefault where
  | noDefault
  | callableDefault
  | scalarDefault (v : SAScalar)
  deriving DecidableEq, Repr

/-- `utils._extract_sa_default`: the default value when it is a simple
scalar, `None` when the default is absent or a callable. -/
def _extract_sa_default : SADefault → Option SAScalar
  | .noDefault => none
  | .callableDefault => none
  | .scalarDefault v => some v

/-- A mapped SQLAlchemy column with the attributes the code reads. -/
structure SAColumn where
  key : String
  type : SAType
  nullable : Bool
  default : SADefault
  deriving DecidableEq, Repr

/-- A mapped SQLAlchemy model: class name, `__tablename__`, mapper columns
and primary-key column names (`mapper.primary_key`). -/
structure SAModel where
  name : String
  tablename : String
  columns : List SAColumn
  primary_key : List String
  deriving DecidableEq, Repr

/-! ## `utils.sqlalchemy_to_pydantic` -/

/-- The default recorded on a generated Pydantic field: required (`...`),
`None`, or a scalar value. -/
inductive FieldDefault where
  | required
  | defaultNone
  | defaultScalar (v : SAScalar)
  deriving DecidableEq, Repr

/-- `col_name.replace("_", " ")`. -/
def underscoreToSpace (s : String) : String :=
  String.mk (s.data.map (fun c => if c == '_' then ' ' else c))

/-- `str.title()` (ASCII part): uppercase each letter that follows a
non-letter, lowercase the other letters.  The flag records whether the
previous character was a letter. -/
def pyTitleAux : Bool → List Char → List Char
  | _, [] => []
  | prevAlpha, c :: rest =>
    if isAsciiAlpha c then
      (if prevAlpha then pyLowerChar c else pyUpperChar c) :: pyTitleAux true rest
    else c :: pyTitleAux false rest

/-- `str.title()` on a string. -/
def pyTitle (s : String) : String := String.mk (pyTitleAux false s.data)

/-- One field of a generated Pydantic model: name, base Python type,
whether the annotation is wrapped in `Optional`, the field title and the
field default. -/
structure PydField where
  name : String
  type : PyType
  optional : Bool
  title : String
  default : FieldDefault
  deriving DecidableEq, Repr

/-- A generated Pydantic model: its name and fields. -/
structure PydSchema where
  name : String
  fields : List PydField
  deriving DecidableEq, Repr

/-- The loop body of `utils.sqlalchemy_to_pydantic` over `mapper.columns`:
skip columns filtered out by `include_columns` (ignored when falsy),
`exclude_columns` and the `for_form` primary-key rule, and turn each
remaining column into a field. -/
def sa_to_pyd_fields (pk_name : Option String) (include_columns exclude_columns : Option (List String))
    (for_form : Bool) : List SAColumn → List PydField
  | [] => []
  | column :: rest =>
    let col_name := column.key
    if (match include_columns with
        | some l => !l.isEmpty && !l.contains col_name
        | none => false) then
      sa_to_pyd_fields pk_name include_columns exclude_columns for_form rest
    else if (match exclude_columns with | some l => l | none => []).contains col_name then
      sa_to_pyd_fields pk_name include_columns exclude_columns for_form rest
    else if for_form && pk_name == some col_name then
      sa_to_pyd_fields pk_name include_columns exclude_columns for_form rest
    else
      { name := col_name
        type := get_python_type column.type
        optional := column.nullable
        title := pyTitle (underscoreToSpace col_name)
        default :=
          match _extract_sa_default column.default with
          | some v => FieldDefault.defaultScalar v
          | none => if column.nullable then FieldDefault.defaultNone else FieldDefault.required } ::
      sa_to_pyd_fields pk_name include_columns exclude_columns for_form rest

/-- `utils.sqlalchemy_to_pydantic`: generate a Pydantic model from a
SQLAlchemy model. -/
def sqlalchemy_to_pydantic (model : SAModel)
    (include_columns : Option (List String) := none)
    (exclude_columns : Option (List String) := none)
    (for_form : Bool := false) : PydSchema :=
  { name := model.name ++ "Schema"
    fields := sa_to_pyd_fields model.primary_key.head? include_columns exclude_columns
      for_form model.columns }

/-- A column passes the `include_columns`/`exclude_columns` filters of
`sqlalchemy_to_pydantic` (with `for_form=False`): an empty or absent include
list filters nothing. -/
def passesFilters (include_columns exclude_columns : Option (List String)) (key : String) : Bool :=
  (match include_columns with
   | some l => l.isEmpty || l.contains key
   | none => true) &&
  !(match exclude_columns with | some l => l | none => []).contains key

/-! ## `views.BaseModelView` -/

/-- The endpoint methods of `BaseModelView` that routes can point at. -/
inductive Endpoint where
  | listHtml | listApi
  | createHtml | createApi
  | detailHtml | detailApi
  | editHtml | editApi
  | deleteApi
  deriving DecidableEq, Repr

/-- The CRUD screen an endpoint belongs to. -/
inductive Screen where
  | listS | detailS | createS | editS | deleteS
  deriving DecidableEq, Repr

/-- Which screen each endpoint method serves. -/
def Endpoint.screen : Endpoint → Screen
  | .listHtml => .listS
  | .listApi => .listS
  | .createHtml => .createS
  | .createApi => .createS
  | .detailHtml => .detailS
  | .detailApi => .detailS
  | .editHtml => .editS
  | .editApi => .editS
  | .deleteApi => .deleteS

/-- Whether the endpoint method serves the prebuilt HTML shell
(`HTMLResponse` via `layout.get_prebuilt_html`); the others return FastUI
component JSON (`JSONResponse`). -/
def Endpoint.isHtml : Endpoint → Bool
  | .listHtml => true
  | .createHtml => true
  | .detailHtml => true
  | .editHtml => true
  | _ => false

/-- A Starlette `Route` as constructed by `get_routes`: path, endpoint
method, the `methods` argument when one is passed, and route name. -/
structure Route where
  path : String
  endpoint : Endpoint
  methods : Option (List String)
  name : String
  deriving DecidableEq, Repr

/-- The class-level configuration of a `BaseModelView` subclass. -/
structure ModelViewCfg where
  name : String
  model : SAModel
  column_list : Option (List String) := none
  column_exclude_list : List String := []
  page_size : Nat := 25
  can_create : Bool := true
  can_edit : Bool := true
  can_delete : Bool := true
  can_view_details : Bool := true
  deriving DecidableEq, Repr

/-- `BaseModelView.get_routes`: list routes always, create/detail/edit/delete
routes gated on the permission flags. -/
def get_routes (v : ModelViewCfg) : List Route :=
  let table_name := v.model.tablename
  let base := "/" ++ table_name
  let routes : List Route :=
    [{ path := base ++ "/", endpoint := .listHtml, methods := none, name := v.name ++ "_list" },
     { path := "/api" ++ base ++ "/", endpoint := .listApi, methods := none,
       name := v.name ++ "_list_api" }]
  let routes := routes ++
    (if v.can_create then
      [{ path := base ++ "/create", endpoint := .createHtml, methods := none,
         name := v.name ++ "_create" },
       { path := "/api" ++ base ++ "/create", endpoint := .createApi,
         methods := some ["GET", "POST"], name := v.name ++ "_create_api" }]
     else [])
  let routes := routes ++
    (if v.can_view_details then
      [{ path := base ++ "/\x7bpk:int\x7d", endpoint := .detailHtml, methods := none,
         name := v.name ++ "_detail" },
       { path := "/api" ++ base ++ "/\x7bpk:int\x7d", endpoint := .detailApi, methods := none,
         name := v.name ++ "_detail_api" }]
     else [])
  let routes := routes ++
    (if v.can_edit then
      [{ path := base ++ "/\x7bpk:int\x7d/edit", endpoint := .editHtml, methods := none,
         name := v.name ++ "_edit" },
       { path := "/api" ++ base ++ "/\x7bpk:int\x7d/edit", endpoint := .editApi,
         methods := some ["GET", "POST"], name := v.name ++ "_edit_api" }]
     else [])
  let routes := routes ++
    (if v.can_delete then
      [{ path := "/api" ++ base ++ "/\x7bpk:int\x7d/delete", endpoint := .deleteApi,
         methods := some ["POST"], name := v.name ++ "_delete_api" }]
     else [])
  routes

/-- `BaseModelView._get_pk_name`: first primary-key column name, or a
`ValueError` when the model has none. -/
def _get_pk_name (v : ModelViewCfg) : Except String String :=
  match v.model.primary_key.head? with
  | some pk => Except.ok pk
  | none => Except.error ("Model " ++ v.model.name ++ " has no primary key")

/-- `BaseModelView._get_columns`: `column_list` (when truthy) filtered to the
mapped columns, otherwise all mapped columns minus `column_exclude_list`. -/
def _get_columns (v : ModelViewCfg) : List String :=
  let all_columns := v.model.columns.map (fun col => col.key)
  match v.column_list with
  | some l =>
    if l.isEmpty then all_columns.filter (fun col => !v.column_exclude_list.contains col)
    else l.filter (fun col => all_columns.contains col)
  | none => all_columns.filter (fun col => !v.column_exclude_list.contains col)

/-- The include list `BaseModelView._get_form_model` passes on:
the list columns minus the primary-key column. -/
def form_include_columns (v : ModelViewCfg) (pk_name : String) : List String :=
  (_get_columns v).filter (fun col => !(col == pk_name))

/-- `BaseModelView._get_form_model`: Pydantic model for forms, built from the
list columns with the primary key removed. -/
def _get_form_model (v : ModelViewCfg) (pk_name : String) : PydSchema :=
  sqlalchemy_to_pydantic v.model (some (form_include_columns v pk_name)) none false

/-! ## `base.BaseAdmin` -/

/-- A SQLAlchemy engine: synchronous `Engine` or `AsyncEngine`. -/
inductive EngineKind where
  | syncEngine | asyncEngine
  deriving DecidableEq, Repr

/-- A session maker: synchronous `sessionmaker` or `async_sessionmaker`. -/
inductive SessionMakerKind where
  | syncSessionMaker | asyncSessionMaker
  deriving DecidableEq, Repr

/-- `BaseAdmin._validate_session_maker`: accept an `async_sessionmaker`,
raise `TypeError` for a sync `sessionmaker`. -/
def _validate_session_maker : SessionMakerKind → Except String Unit
  | .asyncSessionMaker => Except.ok ()
  | .syncSessionMaker =>
    Except.error "Sync sessionmaker is not supported. Use async_sessionmaker from sqlalchemy.ext.asyncio instead."

/-- `BaseAdmin._create_session_maker`: `None` engine gives no session maker,
an async engine gives an `async_sessionmaker`, a sync engine raises
`TypeError`. -/
def _create_session_maker : Option EngineKind → Except String (Option SessionMakerKind)
  | none => Except.ok none
  | some .asyncEngine => Except.ok (some .asyncSessionMaker)
  | some .syncEngine =>
    Except.error "Sync engine is not supported. Use an async engine (e.g., create_async_engine) or provide an async session_maker."

/-- The engine/session-maker validation sequence of `BaseAdmin.__init__`,
returning the resulting `self.session_maker`: raise when neither argument is
given, validate a provided session maker, and fall back to
`session_maker or self._create_session_maker(engine)`. -/
def baseAdminInit (engine : Option EngineKind) (session_maker : Option SessionMakerKind) :
    Except String (Option SessionMakerKind) :=
  if engine = none ∧ session_maker = none then
    Except.error "Neither engine nor session_maker provided. All database-backed model views will raise RuntimeError. Pass an async engine or session_maker to BaseAdmin."
  else
    match session_maker with
    | some sm =>
      match _validate_session_maker sm with
      | Except.error e => Except.error e
      | Except.ok _ => Except.ok (some sm)
    | none => _create_session_maker engine

/-! ## `base.BaseAdmin.add_view` / `mount` -/

/-- The class kind of a view passed to `add_view`: a `BaseModelView`
subclass or a plain `BaseView` subclass. -/
inductive ViewKind where
  | modelView | plainView
  deriving DecidableEq, Repr

/-- A view instance: its class kind plus an identifier distinguishing
instances. -/
structure ViewSpec where
  kind : ViewKind
  id : Nat
  deriving DecidableEq, Repr

/-- The view-registration state of a `BaseAdmin`:
`_views`, `_model_views` and `_mounted`. -/
structure AdminState where
  views : List ViewSpec
  model_views : List ViewSpec
  mounted : Bool
  deriving DecidableEq, Repr

/-- `BaseAdmin.add_view`: raise `RuntimeError` after `mount()` (before any
mutation, so both lists are unchanged); otherwise instantiate the view and
append it to `_views`, and also to `_model_views` for a `BaseModelView`
subclass. -/
def add_view (st : AdminState) (view : ViewSpec) : Except String AdminState :=
  if st.mounted then Except.error "Cannot add views after mount() has been called."
  else
    match view.kind with
    | .modelView =>
      Except.ok { st with model_views := st.model_views ++ [view], views := st.views ++ [view] }
    | .plainView => Except.ok { st with views := st.views ++ [view] }

/-- `BaseAdmin.mount`: no-op when already mounted, otherwise insert the
index view at the front of `_views` and set `_mounted`. -/
def mount (st : AdminState) (index_view : ViewSpec) : AdminState :=
  if st.mounted then st
  else { st with views := index_view :: st.views, mounted := true }

/-! ## Concrete sample data (used by counterexamples and witnesses) -/

/-- A sample mapped model with an integer primary key `id` and a string
column `name`. -/
def usersModel : SAModel :=
  { name := "User"
    tablename := "users"
    columns :=
      [{ key := "id", type := SAType.integer, nullable := false, default := SADefault.noDefault },
       { key := "name", type := SAType.string, nullable := false, default := SADefault.noDefault }]
    primary_key := ["id"] }

/-- A model view over `usersModel` with every permission flag at its default
(`True`). -/
def usersView : ModelViewCfg := { name := "Users", model := usersModel }

/-! ## C1: route synthesis is gated on the permission flags -/

/-- C1: For every `BaseModelView`, `get_routes()` contains the list HTML and
list API routes always; routes to the create endpoints exactly when
`can_create`, to the detail endpoints exactly when `can_view_details`, to
the edit endpoints exactly when `can_edit`, and to the delete endpoint
exactly when `can_delete`; and no route to any other endpoint. -/
theorem get_routes_permission_flags (v : ModelViewCfg) (e : Endpoint) :
    (∃ r ∈ get_routes v, r.endpoint = e) ↔
      (e = Endpoint.listHtml ∨ e = Endpoint.listApi ∨
       (v.can_create = true ∧ (e = Endpoint.createHtml ∨ e = Endpoint.createApi)) ∨
       (v.can_view_details = true ∧ (e = Endpoint.detailHtml ∨ e = Endpoint.detailApi)) ∨
       (v.can_edit = true ∧ (e = Endpoint.editHtml ∨ e = Endpoint.editApi)) ∨
       (v.can_delete = true ∧ e = Endpoint.deleteApi)) := by
  cases hc : v.can_create <;> cases hd : v.can_view_details <;> cases he : v.can_edit <;>
    cases hdel : v.can_delete <;> cases e <;>
      simp [get_routes, hc, hd, he, hdel]

/-! ## C2: which screens have both an HTML shell route and an API route -/

/-- C2 counterexample: with every permission flag enabled, the route set
still contains no HTML shell route for the delete screen — delete is not
"backed by both a JSON API endpoint and a served HTML shell route". -/
theorem delete_screen_has_no_html_route :
    ¬ ∃ r ∈ get_routes usersView,
        Endpoint.screen r.endpoint = Screen.deleteS ∧ Endpoint.isHtml r.endpoint = true := by
  decide

/-- C2 (amended): with all permission flags enabled, the list, detail,
create and edit screens each have both an HTML shell route and a JSON API
route in the route set; the delete screen has a JSON API route but no HTML
shell route. -/
theorem route_screens_html_api_coverage (v : ModelViewCfg)
    (hc : v.can_create = true) (he : v.can_edit = true) (hdel : v.can_delete = true)
    (hd : v.can_view_details = true) :
    (∀ s : Screen, s ≠ Screen.deleteS →
      (∃ r ∈ get_routes v, Endpoint.screen r.endpoint = s ∧ Endpoint.isHtml r.endpoint = true) ∧
      (∃ r ∈ get_routes v, Endpoint.screen r.endpoint = s ∧ Endpoint.isHtml r.endpoint = false)) ∧
    (∃ r ∈ get_routes v,
      Endpoint.screen r.endpoint = Screen.deleteS ∧ Endpoint.isHtml r.endpoint = false) ∧
    (¬ ∃ r ∈ get_routes v,
      Endpoint.screen r.endpoint = Screen.deleteS ∧ Endpoint.isHtml r.endpoint = true) := by
  refine ⟨fun s hs => ?_, ?_, ?_⟩
  · cases s <;> simp_all [get_routes, hc, he, hdel, hd, Endpoint.screen, Endpoint.isHtml]
  · simp [get_routes, hc, he, hdel, hd, Endpoint.screen, Endpoint.isHtml]
  · simp [get_routes, hc, he, hdel, hd, Endpoint.screen, Endpoint.isHtml]

/-- Witness for the amended C2 at the concrete all-flags-on view. -/
theorem route_screens_html_api_coverage_witness :
    ∃ r ∈ get_routes usersView,
      Endpoint.screen r.endpoint = Screen.deleteS ∧ Endpoint.isHtml r.endpoint = false :=
  (route_screens_html_api_coverage usersView rfl rfl rfl rfl).2.1

/-! ## C3: schema fields derived from column metadata -/

/-- The field `sqlalchemy_to_pydantic` builds from one column: the Python
type looked up through `SA_TYPE_MAP`, `Optional` exactly when nullable, and
the default given by the scalar default / nullable / required rule. -/
def fieldOfColumn (col : SAColumn) : PydField :=
  { name := col.key
    type := get_python_type col.type
    optional := col.nullable
    title := pyTitle (underscoreToSpace col.key)
    default :=
      match _extract_sa_default col.default with
      | some v => FieldDefault.defaultScalar v
      | none => if col.nullable then FieldDefault.defaultNone else FieldDefault.required }

/-- The field-building loop (with `for_form=False`) keeps exactly the
columns passing the include/exclude filters and maps each to its field. -/
theorem sa_to_pyd_fields_filter_map (pk : Option String) (inc exc : Option (List String))
    (cols : List SAColumn) :
    sa_to_pyd_fields pk inc exc false cols =
      (cols.filter (fun col => passesFilters inc exc col.key)).map fieldOfColumn := by
  induction cols with
  | nil => rfl
  | cons col rest ih =>
    rcases inc with _ | l <;> rcases exc with _ | el <;>
      · simp only [sa_to_pyd_fields, List.filter_cons, passesFilters, ih]
        split_ifs <;> simp_all [fieldOfColumn]

/-- C3: `sqlalchemy_to_pydantic` creates exactly one field per mapped column
passing the include/exclude filters; each field's Python type is the
`SA_TYPE_MAP` lookup of the column's SQLAlchemy type with `str` for unknown
types, the field is `Optional` exactly when the column is nullable, and the
default is the column's scalar default when one exists (callable and absent
defaults yield none), else `None` for nullable columns, else the field is
required. -/
theorem sqlalchemy_to_pydantic_fields_spec (model : SAModel) (inc exc : Option (List String)) :
    ((sqlalchemy_to_pydantic model inc exc false).fields =
      (model.columns.filter (fun col => passesFilters inc exc col.key)).map
        (fun col =>
          { name := col.key
            type := get_python_type col.type
            optional := col.nullable
            title := pyTitle (underscoreToSpace col.key)
            default :=
              match _extract_sa_default col.default with
              | some v => FieldDefault.defaultScalar v
              | none =>
                if col.nullable then FieldDefault.defaultNone else FieldDefault.required })) ∧
    (get_python_type SAType.bigInteger = PyType.pint ∧
     get_python_type SAType.smallInteger = PyType.pint ∧
     get_python_type SAType.integer = PyType.pint ∧
     get_python_type SAType.float = PyType.pfloat ∧
     get_python_type SAType.numeric = PyType.pdecimal ∧
     get_python_type SAType.string = PyType.pstr ∧
     get_python_type SAType.text = PyType.pstr ∧
     get_python_type SAType.boolean = PyType.pbool ∧
     get_python_type SAType.dateTime = PyType.pdatetime ∧
     get_python_type SAType.date = PyType.pdate ∧
     get_python_type SAType.time = PyType.ptime ∧
     get_python_type SAType.other = PyType.pstr) :=
  ⟨sa_to_pyd_fields_filter_map model.primary_key.head? inc exc model.columns, by decide⟩

/-! ## C4: list and form column sets -/

/-- Every name in the list column set is a mapped column key. -/
theorem mem_get_columns_mem_model (v : ModelViewCfg) (colName : String)
    (h : colName ∈ _get_columns v) : colName ∈ v.model.columns.map (fun c => c.key) := by
  unfold _get_columns at h
  rcases hcl : v.column_list with _ | l <;> rw [hcl] at h
  · exact (List.mem_filter.mp h).1
  · by_cases he : l.isEmpty = true <;> simp only [he, if_true, if_false] at h
    · exact (List.mem_filter.mp h).1
    · have := (List.mem_filter.mp h).2
      simpa using this

/-- A model view whose `column_list` is set to the empty list. -/
def emptyColumnListView : ModelViewCfg :=
  { name := "Users", model := usersModel, column_list := some [] }

/-- C4 counterexample: with `column_list = []` (set, but empty) the claim
predicts the list column set `[]` (the filter of the empty `column_list`),
but the code's truthiness test treats the empty list like `None` and
returns every mapped column. -/
theorem get_columns_empty_column_list_cex :
    _get_columns emptyColumnListView = ["id", "name"] ∧
      ("id" :: "name" :: [] : List String) ≠ ([] : List String) := by
  constructor
  · decide
  · decide

/-- C4 (amended): when `column_list` is set to a non-empty list, the list
column set is that list filtered to the mapped columns, in `column_list`
order; when `column_list` is `None` or the empty list, it is all mapped
columns minus `column_exclude_list`; and when the list column set minus the
primary-key column is non-empty, the form column set equals the list column
set minus the primary-key column (as a set of names). -/
theorem columns_and_form_columns_spec (v : ModelViewCfg) (pk : String)
    (hpk : _get_pk_name v = Except.ok pk) :
    (∀ l, v.column_list = some l → l ≠ [] →
      _get_columns v = l.filter (fun col => (v.model.columns.map (fun c => c.key)).contains col)) ∧
    (v.column_list = none ∨ v.column_list = some [] →
      _get_columns v =
        (v.model.columns.map (fun c => c.key)).filter
          (fun col => !v.column_exclude_list.contains col)) ∧
    (form_include_columns v pk ≠ [] →
      ∀ colName : String,
        colName ∈ (_get_form_model v pk).fields.map PydField.name ↔
          (colName ∈ _get_columns v ∧ colName ≠ pk)) := by
  refine ⟨fun l hl hne => ?_, fun h => ?_, fun hne colName => ?_⟩
  · simp [_get_columns, hl, List.isEmpty_iff, hne]
  · rcases h with h | h <;> simp [_get_columns, h]
  · have hLe : (form_include_columns v pk).isEmpty = false := by
      simpa [List.isEmpty_iff] using hne
    simp only [_get_form_model, sqlalchemy_to_pydantic,
      sa_to_pyd_fields_filter_map, List.map_map, List.mem_map, List.mem_filter,
      Function.comp, fieldOfColumn, passesFilters, hLe]
    constructor
    · rintro ⟨col, ⟨-, hpass⟩, rfl⟩
      simp only [Bool.false_or, List.contains_nil, Bool.not_false, Bool.and_true,
        hLe] at hpass
      have : col.key ∈ form_include_columns v pk := by simpa using hpass
      have := List.mem_filter.mp this
      refine ⟨this.1, ?_⟩
      simpa using this.2
    · rintro ⟨hmem, hneq⟩
      have hall := mem_get_columns_mem_model v colName hmem
      rcases List.mem_map.mp hall with ⟨col, hcol, hkey⟩
      refine ⟨col, ⟨hcol, ?_⟩, hkey⟩
      have hinL : col.key ∈ form_include_columns v pk := by
        rw [hkey]
        exact List.mem_filter.mpr ⟨hmem, by simpa using hneq⟩
      simp [hLe, hinL]

/-- Witness for the amended C4 at a concrete view: `column_list` set to
`["name", "id"]` keeps exactly those columns in that order, and the form
column set is the list set minus the primary key `id`. -/
theorem columns_and_form_columns_spec_witness :
    _get_columns { name := "Users", model := usersModel, column_list := some ["name", "id"] } =
        ["name", "id"] ∧
      ("name" ∈ (_get_form_model
          { name := "Users", model := usersModel, column_list := some ["name", "id"] }
          "id").fields.map PydField.name ↔
        ("name" ∈ _get_columns
            { name := "Users", model := usersModel, column_list := some ["name", "id"] } ∧
          "name" ≠ "id")) := by
  constructor
  · exact ((columns_and_form_columns_spec
      { name := "Users", model := usersModel, column_list := some ["name", "id"] } "id"
      rfl).1 ["name", "id"] rfl (by decide)).trans (by decide)
  · exact (columns_and_form_columns_spec
      { name := "Users", model := usersModel, column_list := some ["name", "id"] } "id"
      rfl).2.2 (by decide) "name"

/-! ## C5: `BaseAdmin.__init__` engine/session-maker validation -/

/-- C5 counterexample: a sync engine together with a valid async
session maker does not raise — `session_maker or _create_session_maker(engine)`
short-circuits, so the engine is never validated.  The claim's "raises
TypeError whenever the provided engine is not an async engine" is false. -/
theorem sync_engine_with_async_session_maker_ok :
    baseAdminInit (some EngineKind.syncEngine) (some SessionMakerKind.asyncSessionMaker) =
      Except.ok (some SessionMakerKind.asyncSessionMaker) := by
  rfl

/-- C5 (amended): constructing `BaseAdmin` raises `TypeError` exactly when
both `engine` and `session_maker` are `None`, or the provided
`session_maker` is a sync `sessionmaker`, or `session_maker` is `None` and
the provided engine is not an async engine (a valid async `session_maker`
suppresses engine validation); every successful construction yields a
non-`None` async session maker. -/
theorem base_admin_init_spec (engine : Option EngineKind) (sm : Option SessionMakerKind) :
    ((∃ msg, baseAdminInit engine sm = Except.error msg) ↔
      ((engine = none ∧ sm = none) ∨ sm = some SessionMakerKind.syncSessionMaker ∨
        (sm = none ∧ engine = some EngineKind.syncEngine))) ∧
    (∀ r, baseAdminInit engine sm = Except.ok r → r = some SessionMakerKind.asyncSessionMaker) := by
  rcases engine with _ | e <;> rcases sm with _ | s <;> (try cases e) <;> (try cases s) <;>
    refine ⟨⟨fun hex => ?_, fun hor => ?_⟩, fun r hr => ?_⟩ <;>
      simp_all [baseAdminInit, _validate_session_maker, _create_session_maker]

/-- Witness for the amended C5: a sync session maker raises, and an async
engine alone constructs an async session maker. -/
theorem base_admin_init_spec_witness :
    (∃ msg, baseAdminInit none (some SessionMakerKind.syncSessionMaker) = Except.error msg) ∧
      some SessionMakerKind.asyncSessionMaker = some SessionMakerKind.asyncSessionMaker :=
  ⟨(base_admin_init_spec none (some SessionMakerKind.syncSessionMaker)).1.mpr
      (Or.inr (Or.inl rfl)),
   (base_admin_init_spec (some EngineKind.asyncEngine) none).2
      (some SessionMakerKind.asyncSessionMaker) rfl⟩

/-! ## C6: view registration before and after `mount` -/

/-- C6: after `mount()`, every `add_view` call raises `RuntimeError` (the
raise happens before any mutation, so `_views` and `_model_views` are
untouched); before `mount()`, `add_view` appends the instantiated view to
`_views`, and also to `_model_views` exactly for `BaseModelView`
subclasses, and the admin stays unmounted. -/
theorem add_view_mount_spec (st : AdminState) (index_view view : ViewSpec) :
    (add_view (mount st index_view) view =
      Except.error "Cannot add views after mount() has been called.") ∧
    (st.mounted = false →
      add_view st view =
        Except.ok
          { views := st.views ++ [view]
            model_views :=
              if view.kind = ViewKind.modelView then st.model_views ++ [view]
              else st.model_views
            mounted := false }) := by
  constructor
  · cases hm : st.mounted <;> cases hk : view.kind <;>
      simp [mount, add_view, hm, hk]
  · intro hm
    cases hk : view.kind <;> simp [add_view, hm, hk]

/-- Witness for C6 at a concrete unmounted state: adding a model view
appends it to both lists. -/
theorem add_view_mount_spec_witness :
    add_view { views := [], model_views := [], mounted := false }
        { kind := ViewKind.modelView, id := 7 } =
      Except.ok
        { views := [{ kind := ViewKind.modelView, id := 7 }]
          model_views := [{ kind := ViewKind.modelView, id := 7 }]
          mounted := false } := by
  have h := (add_view_mount_spec { views := [], model_views := [], mounted := false }
    { kind := ViewKind.plainView, id := 0 } { kind := ViewKind.modelView, id := 7 }).2 rfl
  simpa using h

/-! ## C7: `slugify` output shape and idempotence -/

/-- A slug character is not a hyphen. -/
theorem isSlugChar_ne_hyphen (c : Char) (h : isSlugChar c = true) : (c == '-') = false := by
  rcases hb : c == '-' with _ | _
  · rfl
  · have : c = '-' := by simpa using hb
    subst this
    simp [isSlugChar, isAsciiLower, isAsciiDigit] at h

/-- Slug characters and hyphens are not lowered further. -/
theorem pyLowerChar_slug (c : Char) (h : (isSlugChar c || c == '-') = true) :
    pyLowerChar c = c := by
  have hu : isAsciiUpper c = false := by
    simp only [isSlugChar, isAsciiLower, isAsciiDigit, Bool.or_eq_true, Bool.and_eq_true,
      decide_eq_true_eq] at h
    rcases h with (⟨h1, h2⟩ | ⟨h1, h2⟩) | h
    · simp only [isAsciiUpper, Bool.and_eq_false_iff, decide_eq_false_iff_not]
      omega
    · simp only [isAsciiUpper, Bool.and_eq_false_iff, decide_eq_false_iff_not]
      omega
    · have : c = '-' := by simpa using h
      subst this
      decide
  simp [pyLowerChar, hu]

/-- Slug characters and hyphens are not whitespace. -/
theorem slugChar_not_space (c : Char) (h : (isSlugChar c || c == '-') = true) :
    isPySpace c = false := by
  simp only [isSlugChar, isAsciiLower, isAsciiDigit, Bool.or_eq_true, Bool.and_eq_true,
    decide_eq_true_eq] at h
  rcases h with (⟨h1, h2⟩ | ⟨h1, h2⟩) | h
  · simp only [isPySpace, Bool.or_eq_false_iff, decide_eq_false_iff_not]
    omega
  · simp only [isPySpace, Bool.or_eq_false_iff, decide_eq_false_iff_not]
    omega
  · have : c = '-' := by simpa using h
    subst this
    decide

/-- The substitution only emits slug characters and hyphens. -/
theorem subNonAlnumAux_goodChars (l : List Char) :
    ∀ b, goodSlugChars (subNonAlnumAux b l) = true := by
  induction l with
  | nil => intro b; rfl
  | cons c rest ih =>
    intro b
    by_cases hc : isSlugChar c = true
    · have h2 := ih false
      simp only [subNonAlnumAux, hc, if_pos, goodSlugChars, List.all_cons, Bool.and_eq_true] at h2 ⊢
      exact ⟨by simp [hc], h2⟩
    · cases b
      · have h2 := ih true
        simp only [subNonAlnumAux, hc, if_false, Bool.false_eq_true, goodSlugChars, List.all_cons,
          Bool.and_eq_true] at h2 ⊢
        exact ⟨by decide, h2⟩
      · have h2 := ih true
        simp only [subNonAlnumAux, hc, if_false, if_pos] at h2 ⊢
        exact h2

/-- In run-continuation mode the substitution never starts with a hyphen:
its head, when present, is a slug character. -/
theorem subNonAlnumAux_true_head (l : List Char) :
    ∀ c, (subNonAlnumAux true l).head? = some c → isSlugChar c = true := by
  induction l with
  | nil => intro c h; cases h
  | cons d rest ih =>
    intro c h
    by_cases hd : isSlugChar d = true
    · simp only [subNonAlnumAux, hd, if_pos, List.head?_cons, Option.some.injEq] at h
      exact h ▸ hd
    · simp only [subNonAlnumAux, hd, if_false, if_true] at h
      exact ih c h

/-- Prepending a non-hyphen keeps the no-double-hyphen property. -/
theorem noDoubleHyphen_cons_left (c : Char) (l : List Char) (hc : (c == '-') = false)
    (h : noDoubleHyphen l = true) : noDoubleHyphen (c :: l) = true := by
  cases l with
  | nil => rfl
  | cons d rest => simp [noDoubleHyphen, hc, h]

/-- Prepending anything before a list that does not start with a hyphen
keeps the no-double-hyphen property. -/
theorem noDoubleHyphen_cons_right (c : Char) (l : List Char)
    (hh : ∀ d, l.head? = some d → (d == '-') = false)
    (h : noDoubleHyphen l = true) : noDoubleHyphen (c :: l) = true := by
  cases l with
  | nil => rfl
  | cons d rest =>
    have := hh d rfl
    simp [noDoubleHyphen, this, h]

/-- The tail of a list without double hyphens has no double hyphens. -/
theorem noDoubleHyphen_tail (c : Char) (l : List Char)
    (h : noDoubleHyphen (c :: l) = true) : noDoubleHyphen l = true := by
  cases l with
  | nil => rfl
  | cons d rest =>
    simp only [noDoubleHyphen, Bool.and_eq_true] at h
    exact h.2

/-- The substitution emits no two consecutive hyphens. -/
theorem subNonAlnumAux_noDouble (l : List Char) :
    ∀ b, noDoubleHyphen (subNonAlnumAux b l) = true := by
  induction l with
  | nil => intro b; rfl
  | cons c rest ih =>
    intro b
    by_cases hc : isSlugChar c = true
    · simp only [subNonAlnumAux, hc, if_pos]
      exact noDoubleHyphen_cons_left c _ (isSlugChar_ne_hyphen c hc) (ih false)
    · cases b
      · simp only [subNonAlnumAux, hc, if_false, Bool.false_eq_true]
        refine noDoubleHyphen_cons_right '-' _ (fun d hd => ?_) (ih true)
        exact isSlugChar_ne_hyphen d (subNonAlnumAux_true_head rest d hd)
      · simp only [subNonAlnumAux, hc, if_false, if_pos]
        exact ih true

/-- `List.all` restricts along sublists. -/
theorem all_true_of_sublist {p : Char → Bool} {l' l : List Char} (hs : List.Sublist l' l)
    (h : l.all p = true) : l'.all p = true := by
  rw [List.all_eq_true] at h ⊢
  exact fun x hx => h x (hs.subset hx)

/-- `dropWhile` keeps the no-double-hyphen property. -/
theorem noDoubleHyphen_dropWhile (p : Char → Bool) (l : List Char)
    (h : noDoubleHyphen l = true) : noDoubleHyphen (l.dropWhile p) = true := by
  induction l with
  | nil => exact h
  | cons c rest ih =>
    by_cases hc : p c = true
    · rw [List.dropWhile_cons_of_pos hc]
      exact ih (noDoubleHyphen_tail c rest h)
    · rw [List.dropWhile_cons_of_neg (by simpa using hc)]
      exact h

/-- `dropTrailing` yields a prefix. -/
theorem dropTrailing_isPrefixOf (p : Char → Bool) (l : List Char) : dropTrailing p l <+: l := by
  induction l with
  | nil => exact List.prefix_refl []
  | cons c rest ih =>
    simp only [dropTrailing]
    by_cases hr : (dropTrailing p rest).isEmpty = true
    · simp only [hr, if_pos]
      by_cases hp : p c = true
      · simp only [hp, if_pos]
        exact List.nil_prefix
      · simp only [hp, if_false, Bool.false_eq_true]
        exact List.cons_prefix_cons.mpr ⟨rfl, List.nil_prefix⟩
    · simp only [hr, if_false, Bool.false_eq_true]
      exact List.cons_prefix_cons.mpr ⟨rfl, ih⟩

/-- `dropTrailing` preserves the head when its result is non-empty. -/
theorem head?_dropTrailing (p : Char → Bool) (l : List Char) :
    ∀ x, (dropTrailing p l).head? = some x → l.head? = some x := by
  induction l with
  | nil => intro x h; cases h
  | cons c rest ih =>
    intro x h
    simp only [dropTrailing] at h
    by_cases hr : (dropTrailing p rest).isEmpty = true
    · simp only [hr, if_pos] at h
      by_cases hp : p c = true
      · simp only [hp, if_pos] at h
        cases h
      · simp only [hp, if_false, Bool.false_eq_true, List.head?_cons] at h
        simpa using h
    · simp only [hr, if_false, Bool.false_eq_true, List.head?_cons] at h
      simpa using h

/-- The last element surviving `dropTrailing` does not satisfy `p`. -/
theorem getLast?_dropTrailing_not (p : Char → Bool) (l : List Char) :
    ∀ x, (dropTrailing p l).getLast? = some x → p x = false := by
  induction l with
  | nil => intro x h; cases h
  | cons c rest ih =>
    intro x h
    simp only [dropTrailing] at h
    by_cases hr : (dropTrailing p rest).isEmpty = true
    · simp only [hr, if_pos] at h
      by_cases hp : p c = true
      · simp only [hp, if_pos] at h
        cases h
      · simp only [hp, if_false, Bool.false_eq_true] at h
        have hxc : c = x := by simpa [List.getLast?] using h
        subst hxc
        simpa using hp
    · simp only [hr, if_false, Bool.false_eq_true] at h
      rcases hd : dropTrailing p rest with _ | ⟨d, ds⟩
      · rw [hd] at hr
        simp at hr
      · rw [hd] at h
        rw [List.getLast?_cons_cons] at h
        exact ih x (hd ▸ h)

/-- `dropTrailing` keeps the no-double-hyphen property. -/
theorem noDoubleHyphen_dropTrailing (p : Char → Bool) (l : List Char)
    (h : noDoubleHyphen l = true) : noDoubleHyphen (dropTrailing p l) = true := by
  induction l with
  | nil => exact h
  | cons c rest ih =>
    simp only [dropTrailing]
    by_cases hr : (dropTrailing p rest).isEmpty = true
    · simp only [hr, if_pos]
      by_cases hp : p c = true
      · simp only [hp, if_pos]
        rfl
      · simp only [hp, if_false, Bool.false_eq_true]
        rfl
    · simp only [hr, if_false, Bool.false_eq_true]
      have htail := ih (noDoubleHyphen_tail c rest h)
      rcases hd : dropTrailing p rest with _ | ⟨d, ds⟩
      · rw [hd] at hr
        simp at hr
      · rcases hrest : rest with _ | ⟨e, es⟩
        · rw [hrest] at hd
          cases hd
        · have hde : d = e := by
            have hh := head?_dropTrailing p rest d (by rw [hd]; rfl)
            rw [hrest] at hh
            exact (by simpa using hh : e = d).symm
          subst hde
          rw [hrest] at h
          simp only [noDoubleHyphen, Bool.and_eq_true] at h
          rw [hd] at htail
          simp [noDoubleHyphen, h.1, htail]

/-- The last element of a list is a member. -/
theorem mem_of_getLast?_eq (l : List Char) : ∀ x, l.getLast? = some x → x ∈ l := by
  induction l with
  | nil => intro x h; cases h
  | cons c rest ih =>
    intro x h
    cases rest with
    | nil =>
      have : c = x := by simpa [List.getLast?] using h
      subst this
      exact List.mem_cons_self c []
    | cons d ds =>
      rw [List.getLast?_cons_cons] at h
      exact List.mem_cons_of_mem c (ih x h)

/-- Lowering is the identity on well-formed slug content. -/
theorem map_pyLowerChar_id (l : List Char) (h : goodSlugChars l = true) :
    l.map pyLowerChar = l := by
  induction l with
  | nil => rfl
  | cons c rest ih =>
    simp only [goodSlugChars, List.all_cons, Bool.and_eq_true] at h
    simp only [List.map_cons, pyLowerChar_slug c h.1, ih (by simpa [goodSlugChars] using h.2)]

/-- `dropWhile` is the identity when the head does not satisfy `p`. -/
theorem dropWhile_eq_self_of_head (p : Char → Bool) (l : List Char)
    (h : ∀ x, l.head? = some x → p x = false) : l.dropWhile p = l := by
  cases l with
  | nil => rfl
  | cons c rest => exact List.dropWhile_cons_of_neg (by simpa using h c rfl)

/-- `dropTrailing` is the identity when the last element does not satisfy `p`. -/
theorem dropTrailing_eq_self_of_getLast (p : Char → Bool) (l : List Char)
    (h : ∀ x, l.getLast? = some x → p x = false) : dropTrailing p l = l := by
  induction l with
  | nil => rfl
  | cons c rest ih =>
    simp only [dropTrailing]
    cases rest with
    | nil =>
      have hc := h c (by simp [List.getLast?])
      simp [dropTrailing, hc]
    | cons d ds =>
      have hrest : dropTrailing p (d :: ds) = d :: ds := by
        refine ih fun x hx => h x ?_
        rw [List.getLast?_cons_cons]
        exact hx
      simp [hrest]

/-- Run-continuation mode agrees with fresh mode on a list starting with a
slug character. -/
theorem subNonAlnumAux_true_eq_false (d : Char) (ds : List Char) (hd : isSlugChar d = true) :
    subNonAlnumAux true (d :: ds) = subNonAlnumAux false (d :: ds) := by
  simp [subNonAlnumAux, hd]

/-- The substitution is the identity on well-formed slug content that does
not end with a hyphen. -/
theorem subNonAlnumAux_false_eq_self (l : List Char) (hg : goodSlugChars l = true)
    (hnd : noDoubleHyphen l = true)
    (hlast : ∀ x, l.getLast? = some x → (x == '-') = false) :
    subNonAlnumAux false l = l := by
  induction l with
  | nil => rfl
  | cons c rest ih =>
    simp only [goodSlugChars, List.all_cons, Bool.and_eq_true] at hg
    by_cases hc : isSlugChar c = true
    · have hrest : subNonAlnumAux false rest = rest := by
        refine ih (by simpa [goodSlugChars] using hg.2) (noDoubleHyphen_tail c rest hnd)
          fun x hx => ?_
        cases rest with
        | nil => cases hx
        | cons d ds =>
          refine hlast x ?_
          rw [List.getLast?_cons_cons]
          exact hx
      simp [subNonAlnumAux, hc, hrest]
    · have hhy : (c == '-') = true := by
        rcases Bool.or_eq_true_iff.mp hg.1 with h | h
        · exact absurd h hc
        · exact h
      have hceq : c = '-' := by simpa using hhy
      subst hceq
      cases rest with
      | nil => simpa using hlast '-' (by simp [List.getLast?])
      | cons d ds =>
        have hdnh : (d == '-') = false := by
          simp only [noDoubleHyphen, Bool.and_eq_true] at hnd
          rcases Bool.and_eq_false_iff.mp ((Bool.not_eq_true' ..).mp hnd.1) with h | h
          · simp at h
          · exact h
        have hdslug : isSlugChar d = true := by
          simp only [goodSlugChars, List.all_cons, Bool.and_eq_true] at hg
          rcases Bool.or_eq_true_iff.mp hg.2.1 with h | h
          · exact h
          · rw [h] at hdnh
            cases hdnh
        have hrest : subNonAlnumAux false (d :: ds) = d :: ds := by
          refine ih (by simpa [goodSlugChars] using hg.2) (noDoubleHyphen_tail _ _ hnd)
            fun x hx => ?_
          refine hlast x ?_
          rw [List.getLast?_cons_cons]
          exact hx
        have h45 : isSlugChar '-' = false := by decide
        calc subNonAlnumAux false ('-' :: d :: ds)
            = '-' :: subNonAlnumAux true (d :: ds) := by
              simp only [subNonAlnumAux, h45, Bool.false_eq_true, if_false]
          _ = '-' :: subNonAlnumAux false (d :: ds) := by
              rw [subNonAlnumAux_true_eq_false d ds hdslug]
          _ = '-' :: d :: ds := by rw [hrest]

/-- Build `noEdgeHyphen` from head and last facts. -/
theorem noEdgeHyphen_of (l : List Char)
    (h1 : ∀ x, l.head? = some x → (x == '-') = false)
    (h2 : ∀ x, l.getLast? = some x → (x == '-') = false) : noEdgeHyphen l = true := by
  unfold noEdgeHyphen
  cases hh : l.head? <;> cases hg : l.getLast? <;> simp_all

/-- The slug produced by `slugifyChars` is well formed. -/
theorem slugifyChars_valid (l : List Char) : isValidSlug (slugifyChars l) = true := by
  unfold slugifyChars pyStripBy dropLeading
  set m := subNonAlnum (dropTrailing isPySpace ((l.map pyLowerChar).dropWhile isPySpace))
    with hm
  have hmg : goodSlugChars m = true := subNonAlnumAux_goodChars _ false
  have hmnd : noDoubleHyphen m = true := subNonAlnumAux_noDouble _ false
  have hdw := noDoubleHyphen_dropWhile (fun c => c == '-') m hmnd
  have hgw : goodSlugChars (m.dropWhile (fun c => c == '-')) = true :=
    all_true_of_sublist (List.dropWhile_suffix _).sublist hmg
  unfold isValidSlug
  refine Bool.and_eq_true_iff.mpr ⟨Bool.and_eq_true_iff.mpr ⟨?_, ?_⟩, ?_⟩
  · exact all_true_of_sublist (dropTrailing_isPrefixOf _ _).sublist hgw
  · refine noEdgeHyphen_of _ (fun x hx => ?_) (fun x hx => ?_)
    · have hx2 := head?_dropTrailing _ _ x hx
      have := List.head?_dropWhile_not (fun c => c == '-') m
      rw [hx2] at this
      exact this
    · exact getLast?_dropTrailing_not _ _ x hx
  · exact noDoubleHyphen_dropTrailing _ _ hdw

/-- `slugifyChars` is the identity on well-formed slugs. -/
theorem slugifyChars_of_valid (l : List Char) (h : isValidSlug l = true) :
    slugifyChars l = l := by
  unfold isValidSlug at h
  rcases Bool.and_eq_true_iff.mp h with ⟨h1, hnd⟩
  rcases Bool.and_eq_true_iff.mp h1 with ⟨hg, hedge⟩
  unfold noEdgeHyphen at hedge
  have hhead : ∀ x, l.head? = some x → (x == '-') = false := by
    intro x hx
    rcases Bool.and_eq_true_iff.mp hedge with ⟨he1, -⟩
    rw [hx] at he1
    simpa using he1
  have hlast : ∀ x, l.getLast? = some x → (x == '-') = false := by
    intro x hx
    rcases Bool.and_eq_true_iff.mp hedge with ⟨-, he2⟩
    rw [hx] at he2
    simpa using he2
  have hchar : ∀ x ∈ l, (isSlugChar x || x == '-') = true := by
    intro x hx
    exact List.all_eq_true.mp hg x hx
  unfold slugifyChars pyStripBy dropLeading
  rw [map_pyLowerChar_id l hg]
  rw [dropWhile_eq_self_of_head isPySpace l
    (fun x hx => slugChar_not_space x (hchar x (List.mem_of_mem_head? (by simp [hx]))))]
  rw [dropTrailing_eq_self_of_getLast isPySpace l
    (fun x hx => slugChar_not_space x (hchar x (mem_of_getLast?_eq l x hx)))]
  unfold subNonAlnum
  rw [subNonAlnumAux_false_eq_self l hg hnd hlast]
  rw [dropWhile_eq_self_of_head _ l hhead]
  rw [dropTrailing_eq_self_of_getLast _ l hlast]

/-- C7: `slugify` returns only lowercase ASCII letters, digits and hyphens,
with no leading or trailing hyphen and no two consecutive hyphens, and
`slugify` is idempotent. -/
theorem slugify_valid_and_idempotent (s : String) :
    isValidSlug (slugify s).data = true ∧ slugify (slugify s) = slugify s := by
  constructor
  · exact slugifyChars_valid s.data
  · show String.mk (slugifyChars (slugifyChars s.data)) = String.mk (slugifyChars s.data)
    rw [slugifyChars_of_valid _ (slugifyChars_valid s.data)]
